import Mathlib

/-
Verification of the analytical core of security_events_analyzer_final.py
(class SecurityEventsAnalyzer): the rule-based threat classifier
(extract_detailed_threat_category), the cyclic-pattern detector and the
temporal aggregation in analyze_temporal_patterns, the date-by-hour matrix
of _create_comprehensive_heatmap, and the summary block of export_results.

Python strings become Lean String, Python lists become Lean List, pandas
missing values (NaT timestamps) become Option, and Python exceptions become
Except String.  Slicing sig_list[a:b] becomes (List.drop a).take (b - a),
which has the same clamping behaviour at the end of the list.
-/

/-- Python str.upper on one character, for the ASCII range the signature
alphabet uses: letters a-z map to A-Z, everything else is unchanged. -/
def upperChar (c : Char) : Char :=
  if c.toNat ≥ 97 && c.toNat ≤ 122 then Char.ofNat (c.toNat - 32) else c

/-- Python str.upper on a whole string (ASCII range). -/
def upperStr (s : String) : String := String.mk (s.data.map upperChar)

/-- Python substring membership: `kw in sig` on strings.  True iff some
contiguous run of characters of `sig` equals the characters of `kw`. -/
def strContains (sig kw : String) : Bool :=
  (List.range (sig.data.length + 1)).any fun i =>
    decide ((sig.data.drop i).take kw.data.length = kw.data)

/- Keyword constants used by extract_detailed_threat_category. -/

def kwMALWARECNC : String := "MALWARE-CNC"

def kwWINTROJAN : String := "WIN.TROJAN"

def kwUSERAGENT : String := "USER-AGENT"

def kwEXPLOIT : String := "EXPLOIT"

def kwWIN32K : String := "WIN32K"

def kwJAVAJRE : String := "JAVA JRE"

def kwWEBLOGIC : String := "WEBLOGIC"

def kwORACLE9I : String := "ORACLE 9I"

def kwIIS : String := "IIS"

def kwNETBIOS : String := "NETBIOS"

def kwDCERPC : String := "DCERPC"

def kwSMBDS : String := "SMB-DS"

def kwINDICATORCOMPROMISE : String := "INDICATOR-COMPROMISE"

def kwMYSQL : String := "MYSQL"

def kwRCE : String := "RCE"

def kwPRIVILEGE : String := "PRIVILEGE"

def kwELEVATION : String := "ELEVATION"

def kwBUFFER : String := "BUFFER"

def kwBO : String := "BO"

def kwOVERFLOW : String := "OVERFLOW"

/- Category and detail labels returned by the classifier. -/

def catMALWARE : String := "MALWARE"

def catEXPLOIT : String := "EXPLOIT"

def catNETWORK : String := "NETWORK"

def catINDICATOR : String := "INDICATOR"

def catOTHER : String := "OTHER"

def dTrojanJadtre : String := "Trojan/Win.Jadtre"

def dCncComm : String := "C&C Communication"

def dMalwareActivity : String := "Malware Activity"

def dPrivEscWin32k : String := "Privilege Escalation (Win32k)"

def dRceJava : String := "Remote Code Execution (Java)"

def dBoOracle : String := "Buffer Overflow (Oracle)"

def dWebServerExploit : String := "Web Server Exploit"

def dGenericExploit : String := "Generic Exploit"

def dRpcExploit : String := "RPC Service Exploit"

def dSmbExploit : String := "SMB Service Exploit"

def dNetAnomaly : String := "Network Protocol Anomaly"

def dDbRecon : String := "Database Reconnaissance"

def dSuspicious : String := "Suspicious Activity"

def dRemoteCodeExec : String := "Remote Code Execution"

def dPrivEsc : String := "Privilege Escalation"

def dBufferOverflow : String := "Buffer Overflow"

def dUncategorized : String := "Uncategorized"

/-- Detail selection of the MALWARE-CNC branch of
extract_detailed_threat_category (source lines 128-135). -/
def malwareDetail (sig : String) : String :=
  if strContains sig kwWINTROJAN then dTrojanJadtre
  else if strContains sig kwUSERAGENT then dCncComm
  else dMalwareActivity

/-- Detail selection of the EXPLOIT branch of
extract_detailed_threat_category (source lines 136-147). -/
def exploitDetail (sig : String) : String :=
  if strContains sig kwWIN32K then dPrivEscWin32k
  else if strContains sig kwJAVAJRE || strContains sig kwWEBLOGIC then dRceJava
  else if strContains sig kwORACLE9I then dBoOracle
  else if strContains sig kwIIS then dWebServerExploit
  else dGenericExploit

/-- Detail selection of the NETBIOS branch of
extract_detailed_threat_category (source lines 148-155). -/
def netbiosDetail (sig : String) : String :=
  if strContains sig kwDCERPC then dRpcExploit
  else if strContains sig kwSMBDS then dSmbExploit
  else dNetAnomaly

/-- Detail selection of the INDICATOR-COMPROMISE branch of
extract_detailed_threat_category (source lines 156-161). -/
def indicatorDetail (sig : String) : String :=
  if strContains sig kwMYSQL then dDbRecon
  else dSuspicious

/-- The rule-based threat classifier extract_detailed_threat_category
(source lines 115-175): uppercase the signature, then run the fixed
ordered chain of substring tests; the first satisfied test determines the
main category, a nested test the detailed category; no test satisfied
yields (OTHER, Uncategorized). -/
def extract_detailed_threat_category (signature : String) : String × String :=
  let sig := upperStr signature
  if strContains sig kwMALWARECNC then (catMALWARE, malwareDetail sig)
  else if strContains sig kwEXPLOIT then (catEXPLOIT, exploitDetail sig)
  else if strContains sig kwNETBIOS then (catNETWORK, netbiosDetail sig)
  else if strContains sig kwINDICATORCOMPROMISE then (catINDICATOR, indicatorDetail sig)
  else if strContains sig kwRCE then (catEXPLOIT, dRemoteCodeExec)
  else if strContains sig kwPRIVILEGE || strContains sig kwELEVATION then (catEXPLOIT, dPrivEsc)
  else if strContains sig kwBUFFER || strContains sig kwBO || strContains sig kwOVERFLOW then
    (catEXPLOIT, dBufferOverflow)
  else (catOTHER, dUncategorized)

/- ---------------------------------------------------------------------
Cyclic pattern detector (analyze_temporal_patterns, source lines 271-310).
--------------------------------------------------------------------- -/

/-- The slice tokens[i : i + l] of the signature sequence. -/
def windowAt (tokens : List String) (i l : Nat) : List String :=
  (tokens.drop i).take l

/-- The comparison pattern == next_pattern of source lines 281-284:
the window starting at i equals the immediately following window. -/
def windowEq (tokens : List String) (i l : Nat) : Bool :=
  decide (windowAt tokens i l = windowAt tokens (i + l) l)

/-- The scan loop `for i in range(len(signatures_list) - pattern_length * 2)`
(source line 280), unrolled as a fuel recursion: starting at index i with
`fuel` indices left to try, return the first index whose window equals the
following window, else none. -/
def scanAux (tokens : List String) (l : Nat) (i : Nat) : Nat → Option Nat
  | 0 => none
  | fuel + 1 => if windowEq tokens i l then some i else scanAux tokens l (i + 1) fuel

/-- First index i (scanning i = 0, 1, ..., len - 2*l - 1, exactly the
Python range(len(signatures_list) - pattern_length * 2)) with
tokens[i : i+l] == tokens[i+l : i+2l]; none when no such index. -/
def findFirstMatch (tokens : List String) (l : Nat) : Option Nat :=
  scanAux tokens l 0 (tokens.length - 2 * l)

/-- The extension loop of source lines 292-302, parametric in the list of
candidate values of k (the source uses range(2, 10)): for each k in turn,
stop with 0 further repetitions when the window at i + l*k would run past
the end of the sequence (check_start + pattern_length > len) or differs
from the base pattern; otherwise count it and continue. -/
def extendLoop (tokens pat : List String) (i l : Nat) : List Nat → Nat
  | [] => 0
  | k :: ks =>
    if tokens.length < i + l * k + l then 0
    else if windowAt tokens (i + l * k) l = pat then 1 + extendLoop tokens pat i l ks
    else 0

/-- repetitions as computed at source lines 292-302: initialised to 1, then
incremented once for each consecutive k in range(2, 10) whose window
equals the base pattern, stopping at the first failure. -/
def countRepetitions (tokens : List String) (i l : Nat) : Nat :=
  1 + extendLoop tokens (windowAt tokens i l) i l (List.range' 2 8)

/-- The per-window-length result of the detector: the first matching start
index, paired with its consecutive-repetition count; none when the scan
finds nothing. -/
def detectForLength (tokens : List String) (l : Nat) : Option (Nat × Nat) :=
  match findFirstMatch tokens l with
  | none => none
  | some i => some (i, countRepetitions tokens i l)

/-- One extension check as worded in the specification: the window
tokens[i + l*k : i + l*(k+1)] exists in full and equals the base window
tokens[i : i+l]. -/
def repCheck (tokens : List String) (i l k : Nat) : Bool :=
  decide (i + l * k + l ≤ tokens.length) &&
    decide (windowAt tokens (i + l * k) l = windowAt tokens i l)

/-- Repetition count as worded in the specification: 1 (the base pair) plus
the number of consecutive successful extension checks for k = 2, 3, ...,
the loop index capped below 10, stopping at the first k that fails. -/
def specRepetitionCount (tokens : List String) (i l : Nat) : Nat :=
  1 + ((List.range' 2 8).takeWhile (repCheck tokens i l)).length

/-- Report emitted for one window length by analyze_temporal_patterns:
either the found-pattern message with start index and repetition count, or
the explicit not-found message, or no message at all. -/
inductive LengthOutcome where
  | found : Nat → Nat → LengthOutcome
  | reportedNotFound : LengthOutcome
  | silent : LengthOutcome
deriving DecidableEq

/-- The outer loop over pattern lengths of source lines 275-310, carrying
the patterns_found flag: the flag is initialised once before the loop and
never reset, and the per-length not-found message is printed only while
the flag is still False. -/
def reportLoop (tokens : List String) : List Nat → Bool → List (Nat × LengthOutcome)
  | [], _ => []
  | l :: ls, flag =>
    match detectForLength tokens l with
    | some p => (l, LengthOutcome.found p.1 p.2) :: reportLoop tokens ls true
    | none =>
      (l, if flag then LengthOutcome.silent else LengthOutcome.reportedNotFound) ::
        reportLoop tokens ls flag

/-- self.pattern_lengths_to_check (source line 31). -/
def pattern_lengths_to_check : List Nat := [ 3, 5, 8 ]

/-- The cyclic-pattern section of analyze_temporal_patterns: per-length
outcomes in configuration order, starting with patterns_found = False. -/
def analyzePatternReports (tokens : List String) : List (Nat × LengthOutcome) :=
  reportLoop tokens pattern_lengths_to_check false

/- ---------------------------------------------------------------------
Event model and temporal aggregation (load_and_clean_data derives date and
hour from the parsed timestamp; unparsable timestamps become NaT and are
dropped from every timestamp-derived aggregate).
--------------------------------------------------------------------- -/

/-- A successfully parsed timestamp, reduced to the two derived fields the
aggregates use: the calendar date (abstracted as a day index whose order
is the calendar order) and the hour of day. -/
structure Timestamp where
  date : Nat
  hour : Fin 24
deriving DecidableEq

/-- One alert record: its signature text and its timestamp, none when
pd.to_datetime(..., errors = coerce) produced NaT. -/
structure Event where
  signature : String
  timestamp : Option Timestamp
deriving DecidableEq

/-- The timestamps of the events whose timestamp parsed; value_counts and
pivot_table drop the NaT rows, which is exactly this filter. -/
def validTimestamps (events : List Event) : List Timestamp :=
  events.filterMap Event.timestamp

/-- Entry of hourly_counts = df.hour.value_counts() (source line 245): the
number of valid-timestamp events whose hour equals h. -/
def hourCount (events : List Event) (h : Fin 24) : Nat :=
  (validTimestamps events).countP fun ts => decide (ts.hour = h)

/-- Entry of daily_counts = df.date.value_counts() (source line 262): the
number of valid-timestamp events whose date equals d. -/
def dateCount (events : List Event) (d : Nat) : Nat :=
  (validTimestamps events).countP fun ts => decide (ts.date = d)

/-- The distinct dates carried by valid timestamps: the index set of
daily_counts. -/
def dateFinset (events : List Event) : Finset Nat :=
  ((validTimestamps events).map Timestamp.date).toFinset

/-- avg_events_per_day = daily_counts.mean() (source line 268): the sum of
the per-date counts divided by the number of distinct dates. -/
def avgPerDay (events : List Event) : ℚ :=
  ((∑ d ∈ dateFinset events, dateCount events d : ℕ) : ℚ) / ((dateFinset events).card : ℚ)

/-- One grouping step of the pivot_table of _create_comprehensive_heatmap
(source lines 513-519): the cell of this row's (date, hour) pair gains one. -/
def bumpCell (ts : Timestamp) (m : Nat → Fin 24 → Nat) : Nat → Fin 24 → Nat :=
  fun d h => if ts.date = d ∧ ts.hour = h then m d h + 1 else m d h

/-- The date-by-hour matrix built by pivot_table with aggfunc count and
fill_value 0: every valid-timestamp event increments its (date, hour)
cell, all other cells stay 0. -/
def heatmapCount (events : List Event) : Nat → Fin 24 → Nat :=
  (validTimestamps events).foldr bumpCell (fun _ _ => 0)

/-- The index of hourly_counts.sort_index(): the hours that occur at least
once, in ascending order (value_counts materialises only observed values). -/
def presentHours (events : List Event) : List (Fin 24) :=
  (List.finRange 24).filter fun h => decide (0 < hourCount events h)

/-- hourly_counts.max(): the largest per-hour count among observed hours. -/
def maxHourCount (events : List Event) : Nat :=
  ((presentHours events).map (hourCount events)).foldr max 0

/-- most_active_hour = hourly_counts.idxmax() (source line 255): the first
index of the ascending-hour series whose count attains the maximum; none
models the ValueError idxmax raises on an empty series. -/
def mostActiveHour (events : List Event) : Option (Fin 24) :=
  (presentHours events).find? fun h => decide (hourCount events h = maxHourCount events)

/- ---------------------------------------------------------------------
Summary statistics of export_results (source lines 565-589) and the
exception behaviour of the temporal analysis, modelled with Except.
--------------------------------------------------------------------- -/

def errKeyErrorSignature : String := "KeyError: signature"

def errNaTStrftime : String := "ValueError: NaTType does not support strftime"

def errModeEmpty : String := "KeyError: 0"

def errIdxmaxEmpty : String := "ValueError: attempt to get argmax of an empty sequence"

def sepSp : String := " "

/-- Chronological comparison of two parsed timestamps. -/
def tsLe (a b : Timestamp) : Bool :=
  decide (a.date < b.date) || (decide (a.date = b.date) && decide (a.hour ≤ b.hour))

/-- df.timestamp.min() over the valid timestamps; none models NaT (the
minimum of an all-NaT column). -/
def minTimestamp : List Timestamp → Option Timestamp
  | [] => none
  | x :: xs => some (xs.foldl (fun m t => if tsLe t m then t else m) x)

/-- df.timestamp.max() over the valid timestamps; none models NaT. -/
def maxTimestamp : List Timestamp → Option Timestamp
  | [] => none
  | x :: xs => some (xs.foldl (fun m t => if tsLe m t then t else m) x)

/-- pandas Series.mode()[0]: the smallest value among those of maximal
multiplicity (mode returns the modal values sorted ascending), none when
the series is empty (where the [0] lookup raises). -/
def modeMin {α : Type} [DecidableEq α] [LinearOrder α] (l : List α) : Option α :=
  match l.dedup with
  | [] => none
  | x :: xs =>
    some (xs.foldl (fun b a =>
      if l.count a > l.count b ∨ (l.count a = l.count b ∧ a < b) then a else b) x)

/-- strftime rendering of a timestamp, abstracted to its two fields. -/
def fmtTimestamp (ts : Timestamp) : String :=
  toString ts.date ++ sepSp ++ toString ts.hour.val

/-- The summary-statistics block of export_results (source lines 565-589):
the ten values are computed in source order inside a dict literal, so the
first raising expression aborts the whole block (caught by the except of
export_results, which then writes no summary at all).  An empty event list
yields a DataFrame with no columns, so df.signature raises KeyError at the
second entry; a nonempty list whose timestamps are all invalid reaches
timestamp.min() = NaT, whose strftime raises; the guards in the source
test only column presence, never data presence. -/
def summaryValues (events : List Event) : Except String (List String) :=
  if events.isEmpty then Except.error errKeyErrorSignature
  else
    let n := events.length
    let sigs := events.map Event.signature
    let tss := validTimestamps events
    match minTimestamp tss, maxTimestamp tss with
    | some tmin, some tmax =>
      match modeMin (tss.map Timestamp.hour) with
      | some hmode =>
        let cats := sigs.map fun s => (extract_detailed_threat_category s).1
        match modeMin cats, modeMin sigs with
        | some cmode, some smode =>
          Except.ok [ toString n, toString sigs.dedup.length,
            fmtTimestamp tmin, fmtTimestamp tmax, toString hmode.val,
            toString ((n : ℚ) / 24), toString (dateFinset events).card,
            cmode, smode, toString ((sigs.dedup.length : ℚ) / (n : ℚ)) ]
        | _, _ => Except.error errModeEmpty
      | none => Except.error errModeEmpty
    | _, _ => Except.error errNaTStrftime

/-- most_active_hour = hourly_counts.idxmax() as executed inside
analyze_temporal_patterns (source line 255), where no try/except protects
it: on an empty series pandas raises ValueError and the whole run aborts. -/
def mostActiveHourChecked (events : List Event) : Except String (Fin 24) :=
  match mostActiveHour events with
  | some h => Except.ok h
  | none => Except.error errIdxmaxEmpty

/- Token constants for the concrete test sequences. -/

def tokA : String := "A"

def tokB : String := "B"

def tokC : String := "C"

/- ---------------------------------------------------------------------
Lemmas about the scan loop of the cyclic pattern detector.
--------------------------------------------------------------------- -/

lemma scanAux_some (tokens : List String) (l : Nat) :
    ∀ fuel i j, scanAux tokens l i fuel = some j →
      i ≤ j ∧ j < i + fuel ∧ windowEq tokens j l = true ∧
        ∀ m, i ≤ m → m < j → windowEq tokens m l = false := by
  intro fuel
  induction fuel with
  | zero => intro i j h; simp [scanAux] at h
  | succ fuel ih =>
    intro i j h
    by_cases hw : windowEq tokens i l = true
    · simp only [scanAux, hw, if_true] at h
      cases h
      exact ⟨Nat.le_refl _, by omega, hw, fun m hm1 hm2 => absurd (Nat.lt_of_le_of_lt hm1 hm2) (Nat.lt_irrefl _)⟩
    · have hw' : windowEq tokens i l = false := by
        cases hval : windowEq tokens i l
        · rfl
        · exact absurd hval hw
      simp only [scanAux, hw', Bool.false_eq_true, if_false] at h
      obtain ⟨h1, h2, h3, h4⟩ := ih (i + 1) j h
      refine ⟨by omega, by omega, h3, ?_⟩
      intro m hm1 hm2
      rcases Nat.eq_or_lt_of_le hm1 with heq | hlt
      · exact heq ▸ hw'
      · exact h4 m hlt hm2

lemma scanAux_none (tokens : List String) (l : Nat) :
    ∀ fuel i, scanAux tokens l i fuel = none →
      ∀ m, i ≤ m → m < i + fuel → windowEq tokens m l = false := by
  intro fuel
  induction fuel with
  | zero => intro i _ m hm1 hm2; omega
  | succ fuel ih =>
    intro i h m hm1 hm2
    by_cases hw : windowEq tokens i l = true
    · simp [scanAux, hw] at h
    · have hw' : windowEq tokens i l = false := by
        cases hval : windowEq tokens i l
        · rfl
        · exact absurd hval hw
      simp only [scanAux, hw', Bool.false_eq_true, if_false] at h
      rcases Nat.eq_or_lt_of_le hm1 with heq | hlt
      · exact heq ▸ hw'
      · exact ih (i + 1) h m hlt (by omega)

/-- Claim C1, amended.  The scan of analyze_temporal_patterns considers the
start indices i = 0, ..., len(tokens) - 2*l - 1; the upper bound
len(tokens) - 2*l itself is excluded by range(len - 2*l).  A reported
match is a genuine first match inside that range, an absent match means no
index i with i + 2*l < len matches, and consequently the 4-token input
A B A B with window length 2 is out of reach (see the counterexample),
while the 5-token input A B A B C yields the match at index 0 with
repetition count 1. -/
theorem claimC1_amended_scan_range (tokens : List String) (l : Nat) :
    (∀ i, findFirstMatch tokens l = some i →
        windowEq tokens i l = true ∧ i + 2 * l < tokens.length ∧
          ∀ j, j < i → windowEq tokens j l = false) ∧
      (findFirstMatch tokens l = none →
        ∀ i, i + 2 * l < tokens.length → windowEq tokens i l = false) ∧
      detectForLength [ tokA, tokB, tokA, tokB, tokC ] 2 = some (0, 1) := by
  refine ⟨?_, ?_, by decide⟩
  · intro i h
    obtain ⟨_, h2, h3, h4⟩ := scanAux_some tokens l (tokens.length - 2 * l) 0 i h
    exact ⟨h3, by omega, fun j hj => h4 j (Nat.zero_le _) hj⟩
  · intro h i hi
    exact scanAux_none tokens l (tokens.length - 2 * l) 0 h i (Nat.zero_le _) (by omega)

/-- Claim C1, counterexample.  For the 4-token input A B A B with window
length 2 the code reports no match at all: range(4 - 2*2) is empty, so
index 0 — where the two windows would be equal — is never examined, and in
particular the result is not a match at index 0 with repetition count 1. -/
theorem claimC1_counterexample :
    detectForLength [ tokA, tokB, tokA, tokB ] 2 = none ∧
      detectForLength [ tokA, tokB, tokA, tokB ] 2 ≠ some (0, 1) := by decide

/-- Witness for claimC1_amended_scan_range at the concrete 5-token input. -/
theorem claimC1_amended_witness :
    windowEq [ tokA, tokB, tokA, tokB, tokC ] 0 2 = true ∧
      0 + 2 * 2 < ([ tokA, tokB, tokA, tokB, tokC ] : List String).length := by
  have h :=
    (claimC1_amended_scan_range [ tokA, tokB, tokA, tokB, tokC ] 2).1 0 (by decide)
  exact ⟨h.1, h.2.1⟩

/- ---------------------------------------------------------------------
The extension loop counts exactly the consecutive equal windows.
--------------------------------------------------------------------- -/

lemma extendLoop_eq_takeWhile (tokens pat : List String) (i l : Nat) :
    ∀ ks : List Nat,
      extendLoop tokens pat i l ks =
        (ks.takeWhile fun k =>
            decide (i + l * k + l ≤ tokens.length) &&
              decide (windowAt tokens (i + l * k) l = pat)).length := by
  intro ks
  induction ks with
  | nil => rfl
  | cons k ks ih =>
    rcases Nat.lt_or_ge tokens.length (i + l * k + l) with h1 | h1
    · have h2 : ¬(i + l * k + l ≤ tokens.length) := by omega
      simp [extendLoop, List.takeWhile_cons, h1, h2]
    · have h2 : ¬tokens.length < i + l * k + l := by omega
      by_cases h3 : windowAt tokens (i + l * k) l = pat
      · simp [extendLoop, List.takeWhile_cons, h1, h2, h3, ih]
        omega
      · simp [extendLoop, List.takeWhile_cons, h2, h3]

/-- Claim C2.  The repetition counter starts at 1 (the base pair), then the
extension loop tries k = 2, 3, ... with the loop index capped below 10
(range(2, 10)), counting consecutive windows tokens[i + l*k : i + l*(k+1)]
equal to the base window and stopping at the first k that runs past the
end of the sequence or breaks equality; so the count equals 1 plus the
length of the maximal successful prefix of checks, is always at least 1,
and the 6-token input A B A B A B with window length 2 yields the match at
index 0 with repetition count 2. -/
theorem claimC2_repetition_count (tokens : List String) (i l : Nat) :
    countRepetitions tokens i l = specRepetitionCount tokens i l ∧
      1 ≤ countRepetitions tokens i l ∧
      detectForLength [ tokA, tokB, tokA, tokB, tokA, tokB ] 2 = some (0, 2) := by
  refine ⟨?_, ?_, by decide⟩
  · unfold countRepetitions specRepetitionCount
    rw [extendLoop_eq_takeWhile]
    rfl
  · unfold countRepetitions
    omega

/- ---------------------------------------------------------------------
Counting lemmas for the temporal aggregates.
--------------------------------------------------------------------- -/

lemma sum_countP_hour (l : List Timestamp) (p : Timestamp → Bool) :
    (∑ h : Fin 24, l.countP fun ts => p ts && decide (ts.hour = h)) = l.countP p := by
  induction l with
  | nil => simp
  | cons ts l ih =>
    have hone :
        (∑ h : Fin 24, if (p ts && decide (ts.hour = h)) = true then (1 : ℕ) else 0) =
          if p ts = true then 1 else 0 := by
      cases hp : p ts
      · simp
      · simp
    calc (∑ h : Fin 24, List.countP (fun x => p x && decide (x.hour = h)) (ts :: l))
        = ∑ h : Fin 24,
            (List.countP (fun x => p x && decide (x.hour = h)) l +
              if (p ts && decide (ts.hour = h)) = true then 1 else 0) := by
          refine Finset.sum_congr rfl fun h _ => ?_
          rw [List.countP_cons]
      _ = (∑ h : Fin 24, List.countP (fun x => p x && decide (x.hour = h)) l) +
            ∑ h : Fin 24, if (p ts && decide (ts.hour = h)) = true then (1 : ℕ) else 0 :=
          Finset.sum_add_distrib
      _ = List.countP p l + if p ts = true then 1 else 0 := by rw [ih, hone]
      _ = List.countP p (ts :: l) := (List.countP_cons p ts l).symm

lemma countP_key_eq_count_map {α β : Type} [DecidableEq β] (key : α → β) (l : List α)
    (d : β) : (l.countP fun x => decide (key x = d)) = (l.map key).count d := by
  rw [List.count_eq_countP, List.countP_map]
  apply List.countP_congr
  intro x _
  by_cases h : key x = d <;> simp [Function.comp, h]

lemma toFinset_sum_count (m : List Nat) : (∑ d ∈ m.toFinset, m.count d) = m.length := by
  induction m with
  | nil => simp
  | cons a m ih =>
    by_cases ha : a ∈ m.toFinset
    · rw [List.toFinset_cons, Finset.insert_eq_self.mpr ha]
      have step : ∀ d ∈ m.toFinset, (a :: m).count d = m.count d + if d = a then 1 else 0 := by
        intro d _
        by_cases hd : d = a
        · simp [hd, List.count_cons_self]
        · simp [List.count_cons_of_ne hd, hd]
      rw [Finset.sum_congr rfl step, Finset.sum_add_distrib, ih, Finset.sum_ite_eq' m.toFinset a fun _ => 1]
      simp [ha, List.length_cons]
    · rw [List.toFinset_cons, Finset.sum_insert ha]
      have step : ∀ d ∈ m.toFinset, (a :: m).count d = m.count d := by
        intro d hd
        have hda : d ≠ a := by
          intro hda
          exact ha (hda ▸ hd)
        simp [List.count_cons_of_ne hda]
      rw [Finset.sum_congr rfl step, ih]
      have : (a :: m).count a = m.count a + 1 := List.count_cons_self a m
      rw [this]
      have hma : m.count a = 0 := by
        rw [List.count_eq_zero]
        intro hmem
        exact ha (List.mem_toFinset.mpr hmem)
      simp [hma, List.length_cons]
      omega

lemma sum_dateCount (l : List Timestamp) :
    (∑ d ∈ (l.map Timestamp.date).toFinset, l.countP fun ts => decide (ts.date = d)) =
      l.length := by
  rw [Finset.sum_congr rfl fun d _ => countP_key_eq_count_map Timestamp.date l d]
  rw [toFinset_sum_count (l.map Timestamp.date)]
  simp

/-- Claim C6.  The hour-histogram counts sum to the number of events with a
valid timestamp, the date-histogram counts sum to that same total, and the
mean events per day (daily_counts.mean()) equals that total divided by the
number of distinct dates. -/
theorem claimC6_histogram_sums (events : List Event) :
    (∑ h : Fin 24, hourCount events h) = (validTimestamps events).length ∧
      (∑ d ∈ dateFinset events, dateCount events d) = (validTimestamps events).length ∧
      avgPerDay events =
        ((validTimestamps events).length : ℚ) / ((dateFinset events).card : ℚ) := by
  have hdate : (∑ d ∈ dateFinset events, dateCount events d) = (validTimestamps events).length := by
    unfold dateFinset dateCount
    exact sum_dateCount (validTimestamps events)
  refine ⟨?_, hdate, ?_⟩
  · have h := sum_countP_hour (validTimestamps events) fun _ => true
    unfold hourCount
    simpa [List.countP_true] using h
  · unfold avgPerDay
    rw [hdate]

/- ---------------------------------------------------------------------
The date-by-hour matrix.
--------------------------------------------------------------------- -/

lemma heatmap_cell (l : List Timestamp) (z : Nat → Fin 24 → Nat) (d : Nat) (h : Fin 24) :
    (l.foldr bumpCell z) d h = z d h + (l.countP fun ts => decide (ts.date = d ∧ ts.hour = h)) := by
  induction l with
  | nil => simp
  | cons ts l ih =>
    simp only [List.foldr_cons, bumpCell, List.countP_cons, ih]
    by_cases hc : ts.date = d ∧ ts.hour = h
    · simp [hc]
      omega
    · simp [hc]

/-- Claim C7.  Every cell (d, h) of the pivot matrix equals the number of
valid-timestamp events dated d at hour h — in particular a pair with no
event holds 0 — and the sum of the dense grid (all dates of the data,
hours 0 to 23) equals the number of events with a valid timestamp. -/
theorem claimC7_heatmap_cells (events : List Event) :
    (∀ (d : Nat) (h : Fin 24),
        heatmapCount events d h =
          (validTimestamps events).countP fun ts => decide (ts.date = d ∧ ts.hour = h)) ∧
      (∑ d ∈ dateFinset events, ∑ h : Fin 24, heatmapCount events d h) =
        (validTimestamps events).length := by
  have hcell : ∀ (d : Nat) (h : Fin 24),
      heatmapCount events d h =
        (validTimestamps events).countP fun ts => decide (ts.date = d ∧ ts.hour = h) := by
    intro d h
    have := heatmap_cell (validTimestamps events) (fun _ _ => 0) d h
    simpa [heatmapCount] using this
  refine ⟨hcell, ?_⟩
  have hrow : ∀ d : Nat,
      (∑ h : Fin 24, heatmapCount events d h) =
        (validTimestamps events).countP fun ts => decide (ts.date = d) := by
    intro d
    have hsum := sum_countP_hour (validTimestamps events) fun ts => decide (ts.date = d)
    rw [← hsum]
    apply Finset.sum_congr rfl
    intro h _
    rw [hcell d h]
    apply List.countP_congr
    intro ts _
    by_cases h1 : ts.date = d <;> by_cases h2 : ts.hour = h <;> simp [h1, h2]
  rw [Finset.sum_congr rfl fun d _ => hrow d]
  unfold dateFinset
  exact sum_dateCount (validTimestamps events)

/- ---------------------------------------------------------------------
The most active hour (idxmax of the sorted hour histogram).
--------------------------------------------------------------------- -/

lemma le_foldr_max {x : Nat} : ∀ {l : List Nat}, x ∈ l → x ≤ l.foldr max 0 := by
  intro l
  induction l with
  | nil => intro h; simp at h
  | cons a l ih =>
    intro h
    rcases List.mem_cons.mp h with rfl | hl
    · exact Nat.le_max_left _ _
    · exact Nat.le_trans (ih hl) (Nat.le_max_right _ _)

lemma foldr_max_attained : ∀ l : List Nat, l.foldr max 0 = 0 ∨ l.foldr max 0 ∈ l := by
  intro l
  induction l with
  | nil => exact Or.inl rfl
  | cons a l ih =>
    simp only [List.foldr_cons]
    rcases Nat.le_total (l.foldr max 0) a with hle | hle
    · rw [Nat.max_eq_left hle]
      exact Or.inr (List.mem_cons_self a l)
    · rw [Nat.max_eq_right hle]
      rcases ih with h0 | hmem
      · exact Or.inl h0
      · exact Or.inr (List.mem_cons_of_mem a hmem)

lemma find_first_sorted {p : Fin 24 → Bool} :
    ∀ {l : List (Fin 24)}, l.Pairwise (· < ·) → ∀ {a : Fin 24}, l.find? p = some a →
      ∀ b ∈ l, p b = true → a ≤ b := by
  intro l
  induction l with
  | nil => intro _ a h; simp [List.find?] at h
  | cons c l ih =>
    intro hpw a hfind b hb hpb
    cases hc : p c
    · rw [List.find?_cons, hc] at hfind
      rcases List.mem_cons.mp hb with rfl | hbl
      · rw [hc] at hpb
        exact absurd hpb (by simp)
      · exact ih (List.pairwise_cons.mp hpw).2 hfind b hbl hpb
    · rw [List.find?_cons, hc] at hfind
      cases hfind
      rcases List.mem_cons.mp hb with rfl | hbl
      · exact le_refl _
      · exact le_of_lt ((List.pairwise_cons.mp hpw).1 b hbl)

lemma presentHours_sorted (events : List Event) : (presentHours events).Pairwise (· < ·) :=
  List.Pairwise.filter _ (List.pairwise_lt_finRange 24)

lemma mem_presentHours {events : List Event} {h : Fin 24} :
    h ∈ presentHours events ↔ 0 < hourCount events h := by
  unfold presentHours
  rw [List.mem_filter]
  simp [List.mem_finRange]

/-- Claim C8.  Whenever some event has a valid timestamp a most-active hour
is reported, and a reported most-active hour attains the maximal per-hour
count, with ties resolved to the lowest hour number (idxmax over the
ascending sort_index order returns the first maximising index). -/
theorem claimC8_most_active_hour (events : List Event) :
    (validTimestamps events ≠ [] → ∃ h, mostActiveHour events = some h) ∧
      ∀ h : Fin 24, mostActiveHour events = some h →
        (∀ g : Fin 24, hourCount events g ≤ hourCount events h) ∧
          ∀ g : Fin 24, hourCount events g = hourCount events h → h ≤ g := by
  constructor
  · intro hne
    obtain ⟨ts, hts⟩ : ∃ ts, ts ∈ validTimestamps events := by
      cases hv : validTimestamps events with
      | nil => exact absurd hv hne
      | cons a l => exact ⟨a, hv ▸ List.mem_cons_self a l⟩
    have hpos : 0 < hourCount events ts.hour :=
      List.countP_pos_iff.mpr ⟨ts, hts, by simp⟩
    have hmem : ts.hour ∈ presentHours events := mem_presentHours.mpr hpos
    cases hfind : (presentHours events).find?
        (fun h => decide (hourCount events h = maxHourCount events)) with
    | some h => exact ⟨h, hfind⟩
    | none =>
      exfalso
      have hforall := List.find?_eq_none.mp hfind
      rcases foldr_max_attained ((presentHours events).map (hourCount events)) with h0 | hmem2
      · have hle := le_foldr_max (List.mem_map_of_mem (hourCount events) hmem)
        rw [h0] at hle
        omega
      · rcases List.mem_map.mp hmem2 with ⟨g, hgmem, hgeq⟩
        have : maxHourCount events = hourCount events g := hgeq.symm
        exact hforall g hgmem (by simp [this])
  · intro h hfind
    have hp := List.find?_some hfind
    have hph : hourCount events h = maxHourCount events := by simpa using hp
    have hhmem := List.mem_of_find?_eq_some hfind
    have hhpos : 0 < hourCount events h := mem_presentHours.mp hhmem
    constructor
    · intro g
      by_cases hg : 0 < hourCount events g
      · have hgmem : g ∈ presentHours events := mem_presentHours.mpr hg
        have hle := le_foldr_max (List.mem_map_of_mem (hourCount events) hgmem)
        rw [hph]
        exact hle
      · omega
    · intro g hgeq
      have hgpos : 0 < hourCount events g := by omega
      have hgmem : g ∈ presentHours events := mem_presentHours.mpr hgpos
      exact find_first_sorted (presentHours_sorted events) hfind g hgmem
        (by simp [hgeq, hph])

/- ---------------------------------------------------------------------
Classifier theorems.
--------------------------------------------------------------------- -/

/-- Claim C3.  The classifier is a plain total function of the signature
text (purity, totality and determinism are intrinsic to the definition),
and any signature whose uppercase form contains none of the ten recognized
keywords falls through every rule to (OTHER, Uncategorized). -/
theorem claimC3_unmatched_other (s : String)
    (h1 : strContains (upperStr s) kwMALWARECNC = false)
    (h2 : strContains (upperStr s) kwEXPLOIT = false)
    (h3 : strContains (upperStr s) kwNETBIOS = false)
    (h4 : strContains (upperStr s) kwINDICATORCOMPROMISE = false)
    (h5 : strContains (upperStr s) kwRCE = false)
    (h6 : strContains (upperStr s) kwPRIVILEGE = false)
    (h7 : strContains (upperStr s) kwELEVATION = false)
    (h8 : strContains (upperStr s) kwBUFFER = false)
    (h9 : strContains (upperStr s) kwBO = false)
    (h10 : strContains (upperStr s) kwOVERFLOW = false) :
    extract_detailed_threat_category s = (catOTHER, dUncategorized) := by
  unfold extract_detailed_threat_category
  simp [h1, h2, h3, h4, h5, h6, h7, h8, h9, h10]

def sigHELLO : String := "hello world 123"

/-- Witness for claimC3_unmatched_other at a concrete keyword-free input. -/
theorem claimC3_witness :
    extract_detailed_threat_category sigHELLO = (catOTHER, dUncategorized) :=
  claimC3_unmatched_other sigHELLO (by decide) (by decide) (by decide) (by decide)
    (by decide) (by decide) (by decide) (by decide) (by decide) (by decide)

lemma exploitDetail_ne_rce (sig : String) : exploitDetail sig ≠ dRemoteCodeExec := by
  unfold exploitDetail
  split
  · decide
  · split
    · decide
    · split
      · decide
      · split
        · decide
        · decide

/-- Claim C4, amended.  Among signatures containing both EXPLOIT and RCE,
those additionally containing MALWARE-CNC are consumed by the even earlier
MALWARE-CNC rule (see the counterexample); for all the others the EXPLOIT
branch — the earlier of the two rules named by the claim — decides the
result: the main category is EXPLOIT with the EXPLOIT branch's nested
detail, never the RCE rule's detail label. -/
theorem claimC4_amended_priority (s : String)
    (hE : strContains (upperStr s) kwEXPLOIT = true)
    (hR : strContains (upperStr s) kwRCE = true)
    (hM : strContains (upperStr s) kwMALWARECNC = false) :
    extract_detailed_threat_category s = (catEXPLOIT, exploitDetail (upperStr s)) ∧
      (extract_detailed_threat_category s).2 ≠ dRemoteCodeExec := by
  have hmain : extract_detailed_threat_category s = (catEXPLOIT, exploitDetail (upperStr s)) := by
    unfold extract_detailed_threat_category
    simp [hE, hM]
  refine ⟨hmain, ?_⟩
  rw [hmain]
  exact exploitDetail_ne_rce (upperStr s)

def sigMalwareExploitRce : String := "MALWARE-CNC EXPLOIT RCE"

/-- Claim C4, counterexample.  The signature MALWARE-CNC EXPLOIT RCE
contains both EXPLOIT and RCE, yet its classification is decided by
neither of those rules: the MALWARE-CNC rule fires first and the main
category is MALWARE, not EXPLOIT. -/
theorem claimC4_counterexample :
    strContains (upperStr sigMalwareExploitRce) kwEXPLOIT = true ∧
      strContains (upperStr sigMalwareExploitRce) kwRCE = true ∧
      (extract_detailed_threat_category sigMalwareExploitRce).1 ≠ catEXPLOIT ∧
      extract_detailed_threat_category sigMalwareExploitRce = (catMALWARE, dMalwareActivity) := by
  decide

def sigExploitRce : String := "EXPLOIT RCE ATTACK"

/-- Witness for claimC4_amended_priority at a concrete input containing
both EXPLOIT and RCE but not MALWARE-CNC. -/
theorem claimC4_amended_witness :
    extract_detailed_threat_category sigExploitRce =
        (catEXPLOIT, exploitDetail (upperStr sigExploitRce)) ∧
      (extract_detailed_threat_category sigExploitRce).2 ≠ dRemoteCodeExec :=
  claimC4_amended_priority sigExploitRce (by decide) (by decide) (by decide)

/-- Claim C10.  The Buffer Overflow rule tests the bare two-character
substring BO, so any signature whose uppercase form contains BO anywhere —
even inside an unrelated word — and none of the seven keywords of the
earlier rules is classified (EXPLOIT, Buffer Overflow), not
(OTHER, Uncategorized). -/
theorem claimC10_bo_substring (s : String)
    (hBO : strContains (upperStr s) kwBO = true)
    (h1 : strContains (upperStr s) kwMALWARECNC = false)
    (h2 : strContains (upperStr s) kwEXPLOIT = false)
    (h3 : strContains (upperStr s) kwNETBIOS = false)
    (h4 : strContains (upperStr s) kwINDICATORCOMPROMISE = false)
    (h5 : strContains (upperStr s) kwRCE = false)
    (h6 : strContains (upperStr s) kwPRIVILEGE = false)
    (h7 : strContains (upperStr s) kwELEVATION = false) :
    extract_detailed_threat_category s = (catEXPLOIT, dBufferOverflow) := by
  unfold extract_detailed_threat_category
  simp [hBO, h1, h2, h3, h4, h5, h6, h7]

def sigROBOT : String := "Robot"

/-- Witness for claimC10_bo_substring at the word Robot, which contains BO
only as part of an unrelated word. -/
theorem claimC10_witness :
    extract_detailed_threat_category sigROBOT = (catEXPLOIT, dBufferOverflow) :=
  claimC10_bo_substring sigROBOT (by decide) (by decide) (by decide) (by decide)
    (by decide) (by decide) (by decide) (by decide)

/- ---------------------------------------------------------------------
The shared patterns_found flag and the exception behaviour.
--------------------------------------------------------------------- -/

def tokX : String := "X"

def tokY : String := "Y"

def tokZ : String := "Z"

def tokW : String := "W"

def tokV : String := "V"

def tokU : String := "U"

/-- A 12-token sequence with a repeated window of length 3 at index 0 and
no repeated window of length 5 or 8. -/
def tokensC5 : List String :=
  [ tokA, tokB, tokC, tokA, tokB, tokC, tokX, tokY, tokZ, tokW, tokV, tokU ]

/-- Claim C5 fails on the code: patterns_found is initialised once before
the loop over window lengths and never reset, so after length 3 finds its
match, lengths 5 and 8 — whose own searches find nothing — emit neither a
found message nor the per-length not-found message.  The reported outcome
for lengths 5 and 8 therefore depends on the result for length 3, against
the claimed independence (the searches themselves are independent: both
detectForLength results are none). -/
theorem claimC5_shared_flag_bug :
    analyzePatternReports tokensC5 =
        [ (3, LengthOutcome.found 0 1), (5, LengthOutcome.silent), (8, LengthOutcome.silent) ] ∧
      detectForLength tokensC5 5 = none ∧ detectForLength tokensC5 8 = none := by
  decide

def eventInvalidTs : Event := { signature := tokA, timestamp := none }

/-- Claim C9 fails on the code: on the empty event list the summary block
of export_results raises KeyError at df.signature (the empty DataFrame has
no columns), so no field — the uniqueness ratio included — is ever
reported as unavailable; on a nonempty list whose only timestamp is
invalid the summary block raises at NaT.strftime, and
analyze_temporal_patterns raises ValueError at hourly_counts.idxmax() with
no surrounding try/except, aborting the run. -/
theorem claimC9_exception_behaviour :
    summaryValues [] = Except.error errKeyErrorSignature ∧
      summaryValues [ eventInvalidTs ] = Except.error errNaTStrftime ∧
      mostActiveHourChecked [ eventInvalidTs ] = Except.error errIdxmaxEmpty :=
  ⟨rfl, rfl, rfl⟩

/-- The concrete event list of the claimC8 witness: hours 2 and 5 tie at
two events each, one event has an unparsable timestamp. -/
def eventsTie : List Event :=
  [ { signature := tokA, timestamp := some ⟨ 0, 5 ⟩ },
    { signature := tokA, timestamp := some ⟨ 0, 2 ⟩ },
    { signature := tokB, timestamp := some ⟨ 1, 2 ⟩ },
    { signature := tokB, timestamp := some ⟨ 1, 5 ⟩ },
    { signature := tokC, timestamp := none } ]

/-- Witness for claimC8_most_active_hour on a tie between hours 2 and 5:
the reported hour is 2, the lower of the two. -/
theorem claimC8_witness :
    (∃ h, mostActiveHour eventsTie = some h) ∧
      ((∀ g : Fin 24, hourCount eventsTie g ≤ hourCount eventsTie 2) ∧
        ∀ g : Fin 24, hourCount eventsTie g = hourCount eventsTie 2 → (2 : Fin 24) ≤ g) :=
  ⟨(claimC8_most_active_hour eventsTie).1 (by decide),
    (claimC8_most_active_hour eventsTie).2 2 (by decide)⟩

